import Mathlib

/-!
Verification of the crystalz voxelization kernel.

This file is a shallow embedding, over ℚ, of the Python modules
`crystalz/preprocessing/overlaps.py` (functions `get_voxels`, `repeat_once`,
`lookup_voxel`) and `crystalz/io/xyz.py` (table `VDW_RADII`, function
`read_xyz`).  numpy float arrays are modelled as rational vectors and lists:
length-3 arrays become `Vec3`, the 3×3 lattice matrix becomes `Mat3` (rows
are the lattice vectors, as in the source), and 1-D / (n,3)-shaped arrays
become lists.  Python exceptions (KeyError, ValueError, ZeroDivisionError,
numpy broadcast errors, numpy.linalg.LinAlgError) are modelled by `Option` /
`Except` results; each such modelling choice is documented at the definition
that makes it.
-/

namespace Crystalz

/-- A length-3 numpy float array, with exact rational entries. -/
@[ext]
structure Vec3 where
  x : ℚ
  y : ℚ
  z : ℚ
deriving DecidableEq

instance : Add Vec3 := ⟨fun a b => ⟨a.x + b.x, a.y + b.y, a.z + b.z⟩⟩

instance : Sub Vec3 := ⟨fun a b => ⟨a.x - b.x, a.y - b.y, a.z - b.z⟩⟩

instance : SMul ℚ Vec3 := ⟨fun q v => ⟨q * v.x, q * v.y, q * v.z⟩⟩

instance : Zero Vec3 := ⟨⟨0, 0, 0⟩⟩

theorem Vec3.add_def (a b : Vec3) : a + b = ⟨a.x + b.x, a.y + b.y, a.z + b.z⟩ := rfl

theorem Vec3.sub_def (a b : Vec3) : a - b = ⟨a.x - b.x, a.y - b.y, a.z - b.z⟩ := rfl

theorem Vec3.smul_def (q : ℚ) (v : Vec3) : q • v = ⟨q * v.x, q * v.y, q * v.z⟩ := rfl

/-- Dot product of two 3-vectors. -/
def dot (a b : Vec3) : ℚ := a.x * b.x + a.y * b.y + a.z * b.z

/-- Squared Euclidean norm: `(v**2).sum()` for a length-3 array `v`. -/
def normSq (a : Vec3) : ℚ := a.x ^ 2 + a.y ^ 2 + a.z ^ 2

/-- A 3×3 numpy float matrix; `r1, r2, r3` are its rows.  In `get_voxels` the
rows of the `vectors` argument are the lattice vectors `v1, v2, v3`. -/
@[ext]
structure Mat3 where
  r1 : Vec3
  r2 : Vec3
  r3 : Vec3
deriving DecidableEq

/-- Matrix transposition, `A.T` in numpy. -/
def Mat3.transpose (A : Mat3) : Mat3 :=
  ⟨⟨A.r1.x, A.r2.x, A.r3.x⟩, ⟨A.r1.y, A.r2.y, A.r3.y⟩, ⟨A.r1.z, A.r2.z, A.r3.z⟩⟩

/-- Matrix–vector product, `A @ v` in numpy. -/
def Mat3.mulVec (A : Mat3) (v : Vec3) : Vec3 := ⟨dot A.r1 v, dot A.r2 v, dot A.r3 v⟩

/-- Cross product of two 3-vectors (used to build the explicit 3×3 inverse). -/
def cross (a b : Vec3) : Vec3 :=
  ⟨a.y * b.z - a.z * b.y, a.z * b.x - a.x * b.z, a.x * b.y - a.y * b.x⟩

/-- Determinant of a 3×3 matrix (scalar triple product of its rows). -/
def det3 (A : Mat3) : ℚ := dot A.r1 (cross A.r2 A.r3)

/-- The 3×3 matrix inverse computed by `np.linalg.inv`, written out explicitly
so that it is executable: for a matrix with rows `v1, v2, v3` the columns of
the inverse are `cross v2 v3 / det`, `cross v3 v1 / det`, `cross v1 v2 / det`.
When the determinant is zero this formula divides by zero (numpy raises
`LinAlgError` instead; `get_voxels` models that case by returning `none`). -/
def inv3 (A : Mat3) : Mat3 :=
  let d := det3 A
  let c1 := cross A.r2 A.r3
  let c2 := cross A.r3 A.r1
  let c3 := cross A.r1 A.r2
  ⟨⟨c1.x / d, c2.x / d, c3.x / d⟩, ⟨c1.y / d, c2.y / d, c3.y / d⟩,
    ⟨c1.z / d, c2.z / d, c3.z / d⟩⟩

/-- Componentwise fractional part, `v - np.floor(v)` for a length-3 array. -/
def fractV (v : Vec3) : Vec3 := ⟨Int.fract v.x, Int.fract v.y, Int.fract v.z⟩

/-- The per-sample coordinate wrap of `get_voxels` (overlaps.py lines 51 and
69–72): with `transfer_matrix = np.linalg.inv(vectors).T`, a Cartesian point
`M` is sent to `vectors.T @ (M_lattice - np.floor(M_lattice))` where
`M_lattice = transfer_matrix @ M`. -/
def wrap (vectors : Mat3) (M : Vec3) : Vec3 :=
  let transfer_matrix := (inv3 vectors).transpose
  let M_lattice := transfer_matrix.mulVec M
  vectors.transpose.mulVec (fractV M_lattice)

/-- The `i`-th entry of `np.linspace(0, maxv, num=N, endpoint=False)`,
namely `i * maxv / N`, for `i < N`. -/
def linspace0 (maxv : ℚ) (N : ℕ) (i : ℕ) : ℚ := i * maxv / N

/-- The `i`-th x-axis sample of `get_voxels` (overlaps.py line 53):
`np.linspace(0, x_max, num=resolution, endpoint=False) + x_max / (2*resolution)`. -/
def x_range (x_max : ℚ) (N : ℕ) (i : ℕ) : ℚ := linspace0 x_max N i + x_max / (2 * N)

/-- The `j`-th y-axis sample of `get_voxels` (overlaps.py line 54).  As in the
source, the half-bin offset uses `x_max`, not `y_max`. -/
def y_range (y_max x_max : ℚ) (N : ℕ) (j : ℕ) : ℚ := linspace0 y_max N j + x_max / (2 * N)

/-- The `k`-th z-axis sample of `get_voxels` (overlaps.py line 55).  As in the
source, the half-bin offset uses `x_max`, not `z_max`. -/
def z_range (z_max x_max : ℚ) (N : ℕ) (k : ℕ) : ℚ := linspace0 z_max N k + x_max / (2 * N)

/-- The list `[-1, 0, 1]`, i.e. `range(-1, 2)` in `repeat_once`, as rationals
(numpy promotes the integer factors when they multiply the float rows). -/
def repRange : List ℚ := [-1, 0, 1]

/-- The iteration order of `itertools.product(repetition, repetition,
repetition)` in `repeat_once`: all 27 triples `(k1, k2, k3)` with each
component in `repRange`, `k3` varying fastest. -/
def repTriples : List (ℚ × ℚ × ℚ) :=
  repRange.flatMap fun k1 => repRange.flatMap fun k2 => repRange.map fun k3 => (k1, k2, k3)

/-- `repeat_once` (overlaps.py lines 80–107).  `atoms` is the tuple
`(kinds, centers, radii)`; the kinds are discarded.  For every `(k1, k2, k3)`
in `repTriples` and every `(center, radius)` of `zip(centers, radii)`, in that
loop order, it appends `center + k1*v1 + k2*v2 + k3*v3` to the augmented
centers and `radius` to the augmented radii, `v1, v2, v3` being the rows of
`vectors`; the two result arrays are returned as a pair of lists. -/
def repeat_once (atoms : List String × List Vec3 × List ℚ) (vectors : Mat3) :
    List Vec3 × List ℚ :=
  let centers := atoms.2.1
  let radii := atoms.2.2
  let pairs := repTriples.flatMap fun t =>
    (centers.zip radii).map fun cr =>
      (cr.1 + t.1 • vectors.r1 + t.2.1 • vectors.r2 + t.2.2 • vectors.r3, cr.2)
  (pairs.map Prod.fst, pairs.map Prod.snd)

/-- `lookup_voxel` (overlaps.py lines 110–131): the squared distances from
`M_cell` to every augmented center, compared entrywise against the squared
radii; the result is the number of comparisons `squared_distance ≤
squared_radius` that hold (numpy sums the boolean mask).  Here the centers
array is a list and the entrywise pairing is a `zip`, exact because
`get_voxels` always passes two arrays of the same length. -/
def lookup_voxel (M_cell : Vec3) (centers : List Vec3) (squared_radii : List ℚ) : ℕ :=
  let squared_distances := centers.map fun c => normSq (M_cell - c)
  (squared_distances.zip squared_radii).countP fun d => decide (d.1 ≤ d.2)

/-- The output of `get_voxels`: `res` is the `resolution` argument (the array
is `res × res × res`), and `data a b c` is the float stored at
`voxels[a, b, c]` — an occupancy count, hence a natural number; indices
outside the array hold the `np.zeros` fill value `0`. -/
structure VoxelGrid where
  res : ℕ
  data : ℕ → ℕ → ℕ → ℕ

/-- The `np.zeros((resolution, resolution, resolution))` array. -/
def zeroGrid : ℕ → ℕ → ℕ → ℕ := fun _ _ _ => 0

/-- One assignment `voxels[t.k, t.j, t.i] = v` for a loop triple
`t = (i, j, k)` (note the reversed index order, as in overlaps.py line 75). -/
def gridWrite (g : ℕ → ℕ → ℕ → ℕ) (t : ℕ × ℕ × ℕ) (v : ℕ) : ℕ → ℕ → ℕ → ℕ :=
  fun a b c => if a = t.2.2 ∧ b = t.2.1 ∧ c = t.1 then v else g a b c

/-- The triple-loop iteration order of `get_voxels` (overlaps.py lines
58–62): `i` over the x samples outermost, then `j`, then `k` innermost. -/
def loopIndices (N : ℕ) : List (ℕ × ℕ × ℕ) :=
  (List.range N).flatMap fun i =>
    (List.range N).flatMap fun j =>
      (List.range N).map fun k => (i, j, k)

/-- The fully executed triple loop of `get_voxels`: starting from the zero
array, perform the assignment `voxels[k, j, i] = val i j k` for every loop
triple `(i, j, k)`. -/
def fillGrid (N : ℕ) (val : ℕ → ℕ → ℕ → ℕ) : ℕ → ℕ → ℕ → ℕ :=
  (loopIndices N).foldl (fun g t => gridWrite g t (val t.1 t.2.1 t.2.2)) zeroGrid

/-- `get_voxels` (overlaps.py lines 11–77).  The `Option` result models the
ways the Python function can raise instead of returning:
* `resolution` is a Python `int`; it is taken as a natural number here
  (a negative value would make `np.zeros` itself raise `ValueError`);
* when `vectors` is singular, `np.linalg.inv(vectors)` on line 51 raises
  `numpy.linalg.LinAlgError` — modelled by `none` when `det3 vectors = 0`;
* when `resolution = 0`, the offset `x_max / (2*resolution)` on line 53 is a
  float division by the integer zero and raises `ZeroDivisionError` —
  modelled by `none`;
* when the atom list is empty, `repeat_once` returns `np.array([])`, whose
  shape is `(0,)`, so inside the loop `M_cell - centers` in `lookup_voxel`
  fails to broadcast a `(3,)` array against a `(0,)` array and raises
  `ValueError` — modelled by `none` (with a nonempty atom list the centers
  array has shape `(27*A, 3)` and every operation is the entrywise one
  modelled here).
Otherwise the function returns the filled `resolution³` grid: each loop
iteration stores `lookup_voxel(M_cell, centers, squared_radii)` at
`voxels[k, j, i]`, where `M_cell` is the wrapped sample point
`(x_range i, y_range j, z_range k)`. -/
def get_voxels (atoms : List String × List Vec3 × List ℚ) (vectors : Mat3)
    (resolution : ℕ) (x_max y_max z_max : ℚ) : Option VoxelGrid :=
  let cr := repeat_once atoms vectors
  let centers := cr.1
  let squared_radii := cr.2.map fun r => r ^ 2
  if det3 vectors = 0 then none
  else if resolution = 0 then none
  else if centers = [] then none
  else
    some ⟨resolution, fillGrid resolution fun i j k =>
      lookup_voxel
        (wrap vectors
          ⟨x_range x_max resolution i,
           y_range y_max x_max resolution j,
           z_range z_max x_max resolution k⟩)
        centers squared_radii⟩

/-- Python `str.isspace` for the characters appearing in XYZ files. -/
def isWs (c : Char) : Bool := c.isWhitespace

/-- Helper for `pySplit`: walks the characters, `acc` holding the token being
built; a whitespace character closes the current token (if any). -/
def splitWsGo : List Char → List Char → List String
  | [], acc => if acc.isEmpty then [] else [String.mk acc]
  | c :: cs, acc =>
    if isWs c then (if acc.isEmpty then [] else [String.mk acc]) ++ splitWsGo cs []
    else splitWsGo cs (acc ++ [c])

/-- Python `str.split()` with no argument: split on runs of whitespace,
discarding empty tokens. -/
def pySplit (s : String) : List String := splitWsGo s.data []

/-- Python `str.strip()`: remove leading and trailing whitespace. -/
def pyStrip (s : String) : String :=
  String.mk (((s.data.dropWhile isWs).reverse.dropWhile isWs).reverse)

/-- Python `str.startswith`. -/
def pyStartswith (s pre : String) : Bool := pre.data.isPrefixOf s.data

/-- Decimal digits of a token folded into a natural number. -/
def digitsToNat : List Char → ℕ → ℕ
  | [], acc => acc
  | c :: cs, acc => digitsToNat cs (acc * 10 + (c.toNat - 48))

/-- Whether every character of the list is a decimal digit. -/
def allDigits (cs : List Char) : Bool := cs.all fun c => c.isDigit

/-- Python `float()` on the plain decimal literals that appear in XYZ files:
an optional sign, then digits with at most one decimal point.  Returns `none`
(Python: raises `ValueError`) on anything else; exponent and inf/nan forms,
which never occur in this repository's data or tests, are out of scope and
also map to `none`. -/
def pyFloat (s : String) : Option ℚ :=
  let signBody : ℚ × List Char :=
    match s.data with
    | '-' :: rest => (-1, rest)
    | '+' :: rest => (1, rest)
    | cs => (1, cs)
  let intPart := signBody.2.takeWhile fun c => c != '.'
  let rest := signBody.2.dropWhile fun c => c != '.'
  match rest with
  | [] =>
    if intPart ≠ [] ∧ allDigits intPart then
      some (signBody.1 * (digitsToNat intPart 0 : ℚ))
    else none
  | _ :: fracPart =>
    if (intPart ≠ [] ∨ fracPart ≠ []) ∧ allDigits intPart ∧ allDigits fracPart then
      some (signBody.1 *
        ((digitsToNat intPart 0 : ℚ) + (digitsToNat fracPart 0 : ℚ) / 10 ^ fracPart.length))
    else none

/-- The van-der-Waals radius table of `crystalz/io/xyz.py` (lines 10–15),
with the float literals as exact rationals. -/
def VDW_RADII : List (String × ℚ) :=
  [("Al", 1.84), ("In", 1.93), ("Ga", 1.87), ("O", 1.52)]

/-- The dictionary lookup `VDW_RADII[kind]`: `none` models Python's
`KeyError` for a kind absent from the table. -/
def vdwLookup (kind : String) : Option ℚ :=
  (VDW_RADII.find? fun p => p.1 == kind).map Prod.snd

/-- The ways `read_xyz` can raise.  `valueErr` models Python's `ValueError`
(a malformed float, or an `atom` line that does not split into exactly five
fields, or a `lattice_vector` line without three numbers); `unknownElement
kind` models the `KeyError` raised by `VDW_RADII[kind]` when `kind` is not a
key of the table — the spec's `UnknownElement` error. -/
inductive XYZErr where
  | valueErr : XYZErr
  | unknownElement : String → XYZErr
deriving DecidableEq

/-- The four accumulator lists of `read_xyz` (xyz.py line 40–41). -/
structure XYZState where
  kinds : List String
  centers : List Vec3
  radii : List ℚ
  vectors : List Vec3
deriving DecidableEq

/-- The accumulators before the first line is read. -/
def initXYZ : XYZState := ⟨[], [], [], []⟩

/-- One iteration of the `read_xyz` loop (xyz.py lines 43–52): strip the
line; a `lattice_vector` line appends its three parsed floats as a row; an
`atom` line must split into `(_, x, y, z, kind)`, its coordinates are parsed
(Python evaluates `float(x), float(y), float(z)` before the radius lookup, so
a malformed coordinate raises `ValueError` first) and then `VDW_RADII[kind]`
is looked up, raising `KeyError` — here `XYZErr.unknownElement kind` — when
the kind is unknown; any other line is ignored. -/
def processLine (st : XYZState) (rawLine : String) : Except XYZErr XYZState :=
  let line := pyStrip rawLine
  if pyStartswith line "lattice_vector" then
    match ((pySplit line).drop 1).mapM pyFloat with
    | none => Except.error XYZErr.valueErr
    | some qs =>
      match qs with
      | [a, b, c] => Except.ok { st with vectors := st.vectors ++ [⟨a, b, c⟩] }
      | _ => Except.error XYZErr.valueErr
  else if pyStartswith line "atom" then
    match pySplit line with
    | [_, xc, yc, zc, kind] =>
      match pyFloat xc, pyFloat yc, pyFloat zc with
      | some qx, some qy, some qz =>
        match vdwLookup kind with
        | some r =>
          Except.ok { st with
            kinds := st.kinds ++ [kind],
            centers := st.centers ++ [⟨qx, qy, qz⟩],
            radii := st.radii ++ [r] }
        | none => Except.error (XYZErr.unknownElement kind)
      | _, _, _ => Except.error XYZErr.valueErr
    | _ => Except.error XYZErr.valueErr
  else Except.ok st

/-- The `read_xyz` loop over all lines: the first raising line aborts the
whole parse (a Python exception propagates out of the `for` loop). -/
def processLines (st : XYZState) : List String → Except XYZErr XYZState
  | [] => Except.ok st
  | l :: ls =>
    match processLine st l with
    | Except.ok st2 => processLines st2 ls
    | Except.error e => Except.error e

/-- `read_xyz` (xyz.py lines 22–54): fold the loop over the lines and return
`((kinds, centers, radii), vectors)`; an error means the Python call raised
and returned nothing at all (no partial structure escapes). -/
def read_xyz (lines : List String) :
    Except XYZErr ((List String × List Vec3 × List ℚ) × List Vec3) :=
  (processLines initXYZ lines).map fun st => ((st.kinds, st.centers, st.radii), st.vectors)

/-- The identity lattice, rows `(1,0,0), (0,1,0), (0,0,1)`. -/
def identM : Mat3 := ⟨⟨1, 0, 0⟩, ⟨0, 1, 0⟩, ⟨0, 0, 1⟩⟩

/-- The structure of the spec's end-to-end scenario: one atom of kind `O`
(radius 1.52) centered at `(0.5, 0.5, 0.5)`. -/
def atomO : List String × List Vec3 × List ℚ :=
  (["O"], [⟨1/2, 1/2, 1/2⟩], [1.52])

/-- An input with zero atoms (all three atom arrays empty). -/
def emptyAtoms : List String × List Vec3 × List ℚ := ([], [], [])

/-- A concrete non-orthogonal invertible lattice (determinant 2), used to
instantiate theorems with hypotheses. -/
def exampleLattice : Mat3 := ⟨⟨1, 1, 0⟩, ⟨0, 1, 0⟩, ⟨0, 0, 2⟩⟩

/-- A concrete Cartesian point outside the unit cell, used to instantiate
theorems with hypotheses. -/
def examplePoint : Vec3 := ⟨5/2, -3/10, 7⟩

/-- The two-atom input of `tests/test_overlaps.py` (kinds are ignored by
`repeat_once`, so any kind strings do). -/
def exampleAtoms : List String × List Vec3 × List ℚ :=
  (["K1", "K2"], [⟨0, 0, 0⟩, ⟨1/10, 0, -1/5⟩], [1, 2])

/-- The lattice of `tests/test_overlaps.py`: rows `(1.1,0,0), (0,1.2,0),
(0,0,1.3)`. -/
def exampleVectors : Mat3 := ⟨⟨1.1, 0, 0⟩, ⟨0, 1.2, 0⟩, ⟨0, 0, 1.3⟩⟩

/-- The grid of the spec's end-to-end scenario: `get_voxels` on `atomO` with
the identity lattice, `resolution = 1` and unit bounds (the `getD` default is
never used — the call returns `some`). -/
def exampleGrid : VoxelGrid := (get_voxels atomO identM 1 1 1 1).getD ⟨0, zeroGrid⟩

theorem wrap_eq (A : Mat3) (M : Vec3) :
    wrap A M = A.transpose.mulVec (fractV (((inv3 A).transpose).mulVec M)) := rfl

/-- For an invertible lattice, the transfer matrix `(inv3 A).T` undoes
multiplication by `A.T`: this is the componentwise adjugate identity. -/
theorem transfer_apply (A : Mat3) (h : det3 A ≠ 0) (v : Vec3) :
    ((inv3 A).transpose).mulVec (A.transpose.mulVec v) = v := by
  ext
  all_goals
    simp only [Mat3.mulVec, Mat3.transpose, inv3, dot, cross]
    field_simp
    simp only [det3, dot, cross]
    ring

theorem fractV_fractV (v : Vec3) : fractV (fractV v) = fractV v := by
  ext <;> simp [fractV, Int.fract_fract]

/-- The fractional coordinates of a wrapped point are the fractional parts of
the fractional coordinates of the original point. -/
theorem transfer_wrap (A : Mat3) (h : det3 A ≠ 0) (M : Vec3) :
    ((inv3 A).transpose).mulVec (wrap A M) = fractV (((inv3 A).transpose).mulVec M) := by
  rw [wrap_eq]
  exact transfer_apply A h _

/-- Claim C8: for every invertible lattice matrix and every Cartesian point
`M`, the periodic wrap step `M ↦ latticeᵀ · (T·M - floor(T·M))` with
`T = inverse(lattice)ᵀ` is idempotent, and the wrapped fractional
coordinates `T · wrap(M)` lie in `[0, 1)` componentwise. -/
theorem C8_wrap_idempotent (A : Mat3) (M : Vec3) (h : det3 A ≠ 0) :
    wrap A (wrap A M) = wrap A M ∧
    (0 ≤ (((inv3 A).transpose).mulVec (wrap A M)).x ∧
      (((inv3 A).transpose).mulVec (wrap A M)).x < 1) ∧
    (0 ≤ (((inv3 A).transpose).mulVec (wrap A M)).y ∧
      (((inv3 A).transpose).mulVec (wrap A M)).y < 1) ∧
    (0 ≤ (((inv3 A).transpose).mulVec (wrap A M)).z ∧
      (((inv3 A).transpose).mulVec (wrap A M)).z < 1) := by
  have key := transfer_wrap A h M
  refine ⟨?_, ?_, ?_, ?_⟩
  · rw [wrap_eq A (wrap A M), key, fractV_fractV, ← wrap_eq]
  · rw [key]
    exact ⟨Int.fract_nonneg _, Int.fract_lt_one _⟩
  · rw [key]
    exact ⟨Int.fract_nonneg _, Int.fract_lt_one _⟩
  · rw [key]
    exact ⟨Int.fract_nonneg _, Int.fract_lt_one _⟩

/-- Witness for C8 at the concrete lattice `exampleLattice` (determinant 2)
and point `examplePoint`. -/
theorem C8_witness :
    det3 exampleLattice ≠ 0 ∧
    (wrap exampleLattice (wrap exampleLattice examplePoint) =
        wrap exampleLattice examplePoint ∧
      (0 ≤ (((inv3 exampleLattice).transpose).mulVec (wrap exampleLattice examplePoint)).x ∧
        (((inv3 exampleLattice).transpose).mulVec (wrap exampleLattice examplePoint)).x < 1) ∧
      (0 ≤ (((inv3 exampleLattice).transpose).mulVec (wrap exampleLattice examplePoint)).y ∧
        (((inv3 exampleLattice).transpose).mulVec (wrap exampleLattice examplePoint)).y < 1) ∧
      (0 ≤ (((inv3 exampleLattice).transpose).mulVec (wrap exampleLattice examplePoint)).z ∧
        (((inv3 exampleLattice).transpose).mulVec (wrap exampleLattice examplePoint)).z < 1)) :=
  ⟨by with_unfolding_all decide,
    C8_wrap_idempotent exampleLattice examplePoint (by with_unfolding_all decide)⟩

/-- Claim C1: for resolution `N ≥ 1` and positive bounds, the x samples are
`i*x_max/N + x_max/(2N)`; the y and z samples reuse the x bound for the
half-bin offset (`j*y_max/N + x_max/(2N)` and `k*z_max/N + x_max/(2N)`); and
no x sample — in particular not the last one — equals `x_max`. -/
theorem C1_cell_centered_sampling (N : ℕ) (x_max y_max z_max : ℚ)
    (hN : 1 ≤ N) (hx : 0 < x_max) (_hy : 0 < y_max) (_hz : 0 < z_max) :
    (∀ i, i < N → x_range x_max N i = i * x_max / N + x_max / (2 * N)) ∧
    (∀ j, j < N → y_range y_max x_max N j = j * y_max / N + x_max / (2 * N)) ∧
    (∀ k, k < N → z_range z_max x_max N k = k * z_max / N + x_max / (2 * N)) ∧
    (∀ i, i < N → x_range x_max N i ≠ x_max) := by
  have hN0 : (0 : ℚ) < N := by exact_mod_cast Nat.pos_of_ne_zero (by omega)
  refine ⟨fun i _ => rfl, fun j _ => rfl, fun k _ => rfl, fun i hi => ne_of_lt ?_⟩
  have hiN : (i : ℚ) + 1 ≤ N := by exact_mod_cast hi
  have step : x_range x_max N i = x_max * (2 * i + 1) / (2 * N) := by
    unfold x_range linspace0
    field_simp
    ring
  rw [step, div_lt_iff₀ (by positivity)]
  nlinarith [mul_lt_mul_of_pos_left (show (2 : ℚ) * i + 1 < 2 * N by linarith) hx]

/-- Witness for C1 at `N = 2`, bounds `(1, 2, 3)`. -/
theorem C1_witness :
    (1 : ℕ) ≤ 2 ∧ (0 : ℚ) < 1 ∧ (0 : ℚ) < 2 ∧ (0 : ℚ) < 3 ∧
    ((∀ i, i < 2 → x_range 1 2 i = i * 1 / 2 + 1 / (2 * 2)) ∧
      (∀ j, j < 2 → y_range 2 1 2 j = j * 2 / 2 + 1 / (2 * 2)) ∧
      (∀ k, k < 2 → z_range 3 1 2 k = k * 3 / 2 + 1 / (2 * 2)) ∧
      (∀ i, i < 2 → x_range 1 2 i ≠ 1)) :=
  ⟨by decide, by norm_num, by norm_num, by norm_num,
    C1_cell_centered_sampling 2 1 2 3 (by decide) (by norm_num) (by norm_num) (by norm_num)⟩

theorem length_flatMap_const {α β : Type} (ts : List α) (f : α → List β) (A : ℕ)
    (hf : ∀ x ∈ ts, (f x).length = A) : (ts.flatMap f).length = ts.length * A := by
  induction ts with
  | nil => simp
  | cons x ts ih =>
    simp only [List.flatMap_cons, List.length_append, List.length_cons]
    rw [hf x (List.mem_cons_self x ts), ih fun y hy => hf y (List.mem_cons_of_mem x hy)]
    ring

theorem getD_flatMap {α β : Type} (A : ℕ) (f : α → List β) (dα : α) (dβ : β) :
    ∀ (ts : List α) (t a : ℕ), t < ts.length → a < A →
      (∀ x ∈ ts, (f x).length = A) →
      (ts.flatMap f).getD (t * A + a) dβ = (f (ts.getD t dα)).getD a dβ := by
  intro ts
  induction ts with
  | nil => intro t a ht _ _; simp at ht
  | cons x ts ih =>
    intro t a ht ha hf
    cases t with
    | zero =>
      simp only [List.flatMap_cons, Nat.zero_mul, Nat.zero_add, List.getD_cons_zero]
      rw [List.getD_append]
      rw [hf x (List.mem_cons_self x ts)]
      exact ha
    | succ s =>
      simp only [List.flatMap_cons, List.getD_cons_succ]
      rw [List.getD_append_right]
      · rw [hf x (List.mem_cons_self x ts)]
        have harith : (s + 1) * A + a - A = s * A + a := by ring_nf; omega
        rw [harith]
        exact ih s a (by simpa using ht) ha fun y hy => hf y (List.mem_cons_of_mem x hy)
      · rw [hf x (List.mem_cons_self x ts)]
        nlinarith

theorem getD_map_lt {α β : Type} (f : α → β) (l : List α) (n : ℕ) (h : n < l.length)
    (d : β) (d2 : α) : (l.map f).getD n d = f (l.getD n d2) := by
  rw [List.getD_eq_getElem _ _ (by simpa using h), List.getD_eq_getElem _ _ h,
    List.getElem_map]

theorem getD_zip_lt {α β : Type} :
    ∀ (as : List α) (bs : List β) (n : ℕ), n < as.length → n < bs.length →
      ∀ (d : α × β), (as.zip bs).getD n d = (as.getD n d.1, bs.getD n d.2)
  | [], _, n, ha, _, _ => by simp at ha
  | _ :: _, [], n, _, hb, _ => by simp at hb
  | a :: as, b :: bs, 0, _, _, d => rfl
  | a :: as, b :: bs, n + 1, ha, hb, d => by
    simp only [List.zip_cons_cons, List.getD_cons_succ]
    exact getD_zip_lt as bs n (by simpa using ha) (by simpa using hb) d

/-- Claim C4: `repeat_once` returns exactly `27×A` center/radius pairs; the
translation triples are enumerated in the lexicographic order of
`(k1,k2,k3)` over `(-1,0,1)` (third conjunct pins the exact list), and the
entry at position `t*A + a` is the `a`-th input atom translated by the `t`-th
triple, with its radius unchanged (fourth conjunct); an empty atom list
yields an empty augmented set (fifth conjunct). -/
theorem C4_repeat_once (ks : List String) (cs : List Vec3) (rs : List ℚ)
    (V : Mat3) (A : ℕ) (hc : cs.length = A) (hr : rs.length = A) :
    (repeat_once (ks, cs, rs) V).1.length = 27 * A ∧
    (repeat_once (ks, cs, rs) V).2.length = 27 * A ∧
    repTriples =
      [(-1, -1, -1), (-1, -1, 0), (-1, -1, 1), (-1, 0, -1), (-1, 0, 0), (-1, 0, 1),
        (-1, 1, -1), (-1, 1, 0), (-1, 1, 1), (0, -1, -1), (0, -1, 0), (0, -1, 1),
        (0, 0, -1), (0, 0, 0), (0, 0, 1), (0, 1, -1), (0, 1, 0), (0, 1, 1),
        (1, -1, -1), (1, -1, 0), (1, -1, 1), (1, 0, -1), (1, 0, 0), (1, 0, 1),
        (1, 1, -1), (1, 1, 0), (1, 1, 1)] ∧
    (∀ t a, t < 27 → a < A →
      (repeat_once (ks, cs, rs) V).1.getD (t * A + a) 0 =
        cs.getD a 0 + (repTriples.getD t (0, 0, 0)).1 • V.r1 +
          (repTriples.getD t (0, 0, 0)).2.1 • V.r2 +
          (repTriples.getD t (0, 0, 0)).2.2 • V.r3 ∧
      (repeat_once (ks, cs, rs) V).2.getD (t * A + a) 0 = rs.getD a 0) ∧
    repeat_once (ks, ([] : List Vec3), rs) V = ([], []) := by
  have hzip : (cs.zip rs).length = A := by
    rw [List.length_zip, hc, hr, Nat.min_self]
  have hlen : ∀ x ∈ repTriples,
      ((cs.zip rs).map fun cr =>
        (cr.1 + x.1 • V.r1 + x.2.1 • V.r2 + x.2.2 • V.r3, cr.2)).length = A := by
    intro x _
    simpa using hzip
  have hT : repTriples.length = 27 := by decide
  have hpairs :
      (repTriples.flatMap fun t => (cs.zip rs).map fun cr =>
        (cr.1 + t.1 • V.r1 + t.2.1 • V.r2 + t.2.2 • V.r3, cr.2)).length = 27 * A := by
    rw [length_flatMap_const _ _ A hlen, hT]
  refine ⟨?_, ?_, by decide, ?_, ?_⟩
  · simpa [repeat_once] using hpairs
  · simpa [repeat_once] using hpairs
  · intro t a ht ha
    have hta : t * A + a <
        (repTriples.flatMap fun t => (cs.zip rs).map fun cr =>
          (cr.1 + t.1 • V.r1 + t.2.1 • V.r2 + t.2.2 • V.r3, cr.2)).length := by
      rw [hpairs]
      nlinarith
    have hflat := getD_flatMap A
      (fun t => (cs.zip rs).map fun cr =>
        (cr.1 + t.1 • V.r1 + t.2.1 • V.r2 + t.2.2 • V.r3, cr.2))
      ((0 : ℚ), (0 : ℚ), (0 : ℚ)) ((0 : Vec3), (0 : ℚ)) repTriples t a
      (by rw [hT]; exact ht) ha hlen
    have hmap := getD_map_lt
      (fun cr : Vec3 × ℚ =>
        (cr.1 + (repTriples.getD t (0, 0, 0)).1 • V.r1 +
          (repTriples.getD t (0, 0, 0)).2.1 • V.r2 +
          (repTriples.getD t (0, 0, 0)).2.2 • V.r3, cr.2))
      (cs.zip rs) a (by rw [hzip]; exact ha) ((0 : Vec3), (0 : ℚ)) ((0 : Vec3), (0 : ℚ))
    have hz := getD_zip_lt cs rs a (by rw [hc]; exact ha) (by rw [hr]; exact ha)
      ((0 : Vec3), (0 : ℚ))
    constructor
    · show (repeat_once (ks, cs, rs) V).1.getD (t * A + a) 0 = _
      unfold repeat_once
      rw [getD_map_lt Prod.fst _ _ (by simpa [repeat_once] using hta) 0
        ((0 : Vec3), (0 : ℚ))]
      rw [hflat, hmap, hz]
    · show (repeat_once (ks, cs, rs) V).2.getD (t * A + a) 0 = _
      unfold repeat_once
      rw [getD_map_lt Prod.snd _ _ (by simpa [repeat_once] using hta) 0
        ((0 : Vec3), (0 : ℚ))]
      rw [hflat, hmap, hz]
  · rfl

/-- Witness for C4 at the two-atom input of `tests/test_overlaps.py`. -/
theorem C4_witness :
    exampleAtoms.2.1.length = 2 ∧ exampleAtoms.2.2.length = 2 ∧
    ((repeat_once (exampleAtoms.1, exampleAtoms.2.1, exampleAtoms.2.2)
        exampleVectors).1.length = 27 * 2 ∧
      (repeat_once (exampleAtoms.1, exampleAtoms.2.1, exampleAtoms.2.2)
        exampleVectors).2.length = 27 * 2 ∧
      repTriples =
        [(-1, -1, -1), (-1, -1, 0), (-1, -1, 1), (-1, 0, -1), (-1, 0, 0), (-1, 0, 1),
          (-1, 1, -1), (-1, 1, 0), (-1, 1, 1), (0, -1, -1), (0, -1, 0), (0, -1, 1),
          (0, 0, -1), (0, 0, 0), (0, 0, 1), (0, 1, -1), (0, 1, 0), (0, 1, 1),
          (1, -1, -1), (1, -1, 0), (1, -1, 1), (1, 0, -1), (1, 0, 0), (1, 0, 1),
          (1, 1, -1), (1, 1, 0), (1, 1, 1)] ∧
      (∀ t a, t < 27 → a < 2 →
        (repeat_once (exampleAtoms.1, exampleAtoms.2.1, exampleAtoms.2.2)
          exampleVectors).1.getD (t * 2 + a) 0 =
          exampleAtoms.2.1.getD a 0 + (repTriples.getD t (0, 0, 0)).1 • exampleVectors.r1 +
            (repTriples.getD t (0, 0, 0)).2.1 • exampleVectors.r2 +
            (repTriples.getD t (0, 0, 0)).2.2 • exampleVectors.r3 ∧
        (repeat_once (exampleAtoms.1, exampleAtoms.2.1, exampleAtoms.2.2)
          exampleVectors).2.getD (t * 2 + a) 0 = exampleAtoms.2.2.getD a 0) ∧
      repeat_once (exampleAtoms.1, ([] : List Vec3), exampleAtoms.2.2)
        exampleVectors = ([], [])) :=
  ⟨by decide, by decide,
    C4_repeat_once exampleAtoms.1 exampleAtoms.2.1 exampleAtoms.2.2 exampleVectors 2
      (by decide) (by decide)⟩

theorem countP_zip_range {α β : Type} (q : α × β → Bool) (da : α) (db : β) :
    ∀ (as : List α) (bs : List β), as.length = bs.length →
      (as.zip bs).countP q =
        (List.range as.length).countP fun i => q (as.getD i da, bs.getD i db) := by
  intro as
  induction as with
  | nil => intro bs _; simp
  | cons a as ih =>
    intro bs h
    cases bs with
    | nil => simp at h
    | cons b bs =>
      simp only [List.zip_cons_cons, List.countP_cons, List.length_cons]
      rw [List.range_succ_eq_map, List.countP_cons, List.countP_map]
      simp only [Function.comp_def, List.getD_cons_succ, List.getD_cons_zero]
      rw [ih bs (by simpa using h)]

/-- Claim C6: `lookup_voxel` counts exactly the spheres whose squared
distance to the point is at most their squared radius (first conjunct: the
count equals the number of indices with `distance² ≤ radius²`); a point at
squared distance exactly `r²` from a center with squared radius `r²` is
counted (second conjunct), and one at strictly larger squared distance is
not (third conjunct). -/
theorem C6_containment_boundary (p : Vec3) (cs : List Vec3) (rs : List ℚ)
    (h : cs.length = rs.length) :
    lookup_voxel p cs rs =
      (List.range cs.length).countP
        (fun i => decide (normSq (p - cs.getD i 0) ≤ rs.getD i 0)) ∧
    (∀ c r, normSq (p - c) = r ^ 2 → lookup_voxel p [c] [r ^ 2] = 1) ∧
    (∀ c r, r ^ 2 < normSq (p - c) → lookup_voxel p [c] [r ^ 2] = 0) := by
  refine ⟨?_, ?_, ?_⟩
  · show (((cs.map fun c => normSq (p - c)).zip rs).countP fun d => decide (d.1 ≤ d.2)) = _
    rw [countP_zip_range _ (0 : ℚ) (0 : ℚ) _ _ (by simpa using h)]
    rw [List.length_map]
    apply List.countP_congr
    intro i hi
    rw [List.mem_range] at hi
    simp only
    rw [getD_map_lt _ _ _ hi _ 0]
  · intro c r hcr
    simp [lookup_voxel, hcr]
  · intro c r hcr
    simp [lookup_voxel, not_le.mpr hcr]

/-- Witness for C6 at a two-sphere configuration: the origin sits exactly on
the boundary of the first sphere and strictly outside the second. -/
theorem C6_witness :
    ([⟨1, 0, 0⟩, ⟨3, 0, 0⟩] : List Vec3).length = ([1, 4] : List ℚ).length ∧
    (lookup_voxel ⟨0, 0, 0⟩ [⟨1, 0, 0⟩, ⟨3, 0, 0⟩] [1, 4] =
      (List.range ([⟨1, 0, 0⟩, ⟨3, 0, 0⟩] : List Vec3).length).countP
        (fun i => decide (normSq (Vec3.mk 0 0 0 - ([⟨1, 0, 0⟩, ⟨3, 0, 0⟩] : List Vec3).getD i 0) ≤
          ([1, 4] : List ℚ).getD i 0)) ∧
      (∀ c r, normSq (Vec3.mk 0 0 0 - c) = r ^ 2 →
        lookup_voxel ⟨0, 0, 0⟩ [c] [r ^ 2] = 1) ∧
      (∀ c r, r ^ 2 < normSq (Vec3.mk 0 0 0 - c) →
        lookup_voxel ⟨0, 0, 0⟩ [c] [r ^ 2] = 0)) :=
  ⟨by decide, C6_containment_boundary ⟨0, 0, 0⟩ [⟨1, 0, 0⟩, ⟨3, 0, 0⟩] [1, 4] (by decide)⟩

theorem foldl_write_notmem (val : ℕ → ℕ → ℕ → ℕ) :
    ∀ (l : List (ℕ × ℕ × ℕ)) (g : ℕ → ℕ → ℕ → ℕ) (i j k : ℕ), (i, j, k) ∉ l →
      (l.foldl (fun g t => gridWrite g t (val t.1 t.2.1 t.2.2)) g) k j i = g k j i := by
  intro l
  induction l with
  | nil => intro g i j k _; rfl
  | cons t ts ih =>
    intro g i j k hmem
    simp only [List.foldl_cons]
    rw [ih _ i j k fun hc => hmem (List.mem_cons_of_mem t hc)]
    unfold gridWrite
    rw [if_neg]
    rintro ⟨h1, h2, h3⟩
    exact hmem (by
      have : t = (i, j, k) := by
        obtain ⟨t1, t2, t3⟩ := t
        simp_all
      rw [this]
      exact List.mem_cons_self _ _)

theorem foldl_write_mem (val : ℕ → ℕ → ℕ → ℕ) :
    ∀ (l : List (ℕ × ℕ × ℕ)) (g : ℕ → ℕ → ℕ → ℕ) (i j k : ℕ),
      l.Nodup → (i, j, k) ∈ l →
      (l.foldl (fun g t => gridWrite g t (val t.1 t.2.1 t.2.2)) g) k j i = val i j k := by
  intro l
  induction l with
  | nil => intro g i j k _ hmem; simp at hmem
  | cons t ts ih =>
    intro g i j k hnd hmem
    rw [List.nodup_cons] at hnd
    rcases List.mem_cons.mp hmem with heq | hts
    · subst heq
      simp only [List.foldl_cons]
      rw [foldl_write_notmem val ts _ i j k hnd.1]
      unfold gridWrite
      rw [if_pos ⟨rfl, rfl, rfl⟩]
    · simp only [List.foldl_cons]
      exact ih _ i j k hnd.2 hts

theorem mem_loopIndices (N i j k : ℕ) :
    (i, j, k) ∈ loopIndices N ↔ i < N ∧ j < N ∧ k < N := by
  simp only [loopIndices, List.mem_flatMap, List.mem_map, List.mem_range,
    Prod.mk.injEq]
  constructor
  · rintro ⟨a, ha, b, hb, c, hc, rfl, rfl, rfl⟩
    exact ⟨ha, hb, hc⟩
  · rintro ⟨hi, hj, hk⟩
    exact ⟨i, hi, j, hj, k, hk, rfl, rfl, rfl⟩

theorem nodup_loopIndices (N : ℕ) : (loopIndices N).Nodup := by
  unfold loopIndices
  rw [List.nodup_flatMap]
  refine ⟨fun i _ => ?_, ?_⟩
  · rw [List.nodup_flatMap]
    refine ⟨fun j _ => (List.nodup_range N).map fun a b h => by simpa using h, ?_⟩
    refine List.Pairwise.imp ?_ (List.pairwise_lt_range N)
    intro a b hab x hxa hxb
    simp only [List.mem_map] at hxa hxb
    obtain ⟨k1, _, rfl⟩ := hxa
    obtain ⟨k2, _, hk⟩ := hxb
    simp only [Prod.mk.injEq] at hk
    omega
  · refine List.Pairwise.imp ?_ (List.pairwise_lt_range N)
    intro a b hab x hxa hxb
    simp only [List.mem_flatMap, List.mem_map] at hxa hxb
    obtain ⟨j1, _, k1, _, rfl⟩ := hxa
    obtain ⟨j2, _, k2, _, hk⟩ := hxb
    simp only [Prod.mk.injEq] at hk
    omega

/-- After the full triple loop, the array holds `val i j k` at position
`[k, j, i]`, for all in-range indices. -/
theorem fillGrid_lookup (N : ℕ) (val : ℕ → ℕ → ℕ → ℕ) (i j k : ℕ)
    (hi : i < N) (hj : j < N) (hk : k < N) :
    fillGrid N val k j i = val i j k :=
  foldl_write_mem val (loopIndices N) zeroGrid i j k (nodup_loopIndices N)
    ((mem_loopIndices N i j k).mpr ⟨hi, hj, hk⟩)

/-- The grid produced by a successful `get_voxels` call, read at `[k, j, i]`,
is the occupancy of the wrapped sample point `(x_i, y_j, z_k)`. -/
theorem get_voxels_data (atoms : List String × List Vec3 × List ℚ) (V : Mat3)
    (N : ℕ) (xm ym zm : ℚ) (i j k : ℕ) (g : VoxelGrid)
    (hdet : det3 V ≠ 0) (hN : N ≠ 0) (hne : (repeat_once atoms V).1 ≠ [])
    (hi : i < N) (hj : j < N) (hk : k < N)
    (hg : get_voxels atoms V N xm ym zm = some g) :
    g.res = N ∧
    g.data k j i =
      lookup_voxel (wrap V ⟨x_range xm N i, y_range ym xm N j, z_range zm xm N k⟩)
        (repeat_once atoms V).1 ((repeat_once atoms V).2.map fun r => r ^ 2) := by
  simp only [get_voxels] at hg
  rw [if_neg hdet, if_neg hN, if_neg hne] at hg
  cases hg
  refine ⟨rfl, ?_⟩
  dsimp only
  exact fillGrid_lookup N _ i j k hi hj hk

/-- Claim C7: for all in-range indices, the occupancy computed for the
sample point `(x_i, y_j, z_k)` — `i` indexing x, `j` indexing y, `k`
indexing z — is stored at output position `[k, j, i]`. -/
theorem C7_reversed_index_order (ks : List String) (cs : List Vec3) (rs : List ℚ)
    (V : Mat3) (N : ℕ) (xm ym zm : ℚ) (i j k : ℕ) (g : VoxelGrid)
    (hdet : det3 V ≠ 0) (hN : N ≠ 0)
    (hne : (repeat_once (ks, cs, rs) V).1 ≠ [])
    (hi : i < N) (hj : j < N) (hk : k < N)
    (hg : get_voxels (ks, cs, rs) V N xm ym zm = some g) :
    g.data k j i =
      lookup_voxel (wrap V ⟨x_range xm N i, y_range ym xm N j, z_range zm xm N k⟩)
        (repeat_once (ks, cs, rs) V).1
        ((repeat_once (ks, cs, rs) V).2.map fun r => r ^ 2) :=
  (get_voxels_data (ks, cs, rs) V N xm ym zm i j k g hdet hN hne hi hj hk hg).2

/-- Witness for C7 at the end-to-end scenario input. -/
theorem C7_witness :
    det3 identM ≠ 0 ∧ (1 : ℕ) ≠ 0 ∧ (repeat_once atomO identM).1 ≠ [] ∧
    (0 : ℕ) < 1 ∧ get_voxels atomO identM 1 1 1 1 = some exampleGrid ∧
    exampleGrid.data 0 0 0 =
      lookup_voxel (wrap identM ⟨x_range 1 1 0, y_range 1 1 1 0, z_range 1 1 1 0⟩)
        (repeat_once atomO identM).1
        ((repeat_once atomO identM).2.map fun r => r ^ 2) :=
  ⟨by with_unfolding_all decide, by decide, by with_unfolding_all decide,
    by decide, by with_unfolding_all rfl,
    C7_reversed_index_order atomO.1 atomO.2.1 atomO.2.2 identM 1 1 1 1 0 0 0
      exampleGrid (by with_unfolding_all decide) (by decide)
      (by with_unfolding_all decide) (by decide) (by decide) (by decide)
      (by with_unfolding_all rfl)⟩

theorem repeat_once_length (atoms : List String × List Vec3 × List ℚ) (V : Mat3) :
    (repeat_once atoms V).1.length = 27 * (atoms.2.1.zip atoms.2.2).length ∧
    (repeat_once atoms V).2.length = 27 * (atoms.2.1.zip atoms.2.2).length := by
  have h := length_flatMap_const repTriples
    (fun t => (atoms.2.1.zip atoms.2.2).map fun cr =>
      (cr.1 + t.1 • V.r1 + t.2.1 • V.r2 + t.2.2 • V.r3, cr.2))
    ((atoms.2.1.zip atoms.2.2).length) (fun x _ => by simp)
  have hT : repTriples.length = 27 := by decide
  rw [hT] at h
  constructor <;> simpa [repeat_once] using h

/-- `lookup_voxel` never counts more spheres than there are centers. -/
theorem lookup_voxel_le (p : Vec3) (cs : List Vec3) (rs : List ℚ) :
    lookup_voxel p cs rs ≤ cs.length := by
  show ((cs.map fun c => normSq (p - c)).zip rs).countP (fun d => decide (d.1 ≤ d.2)) ≤ _
  calc ((cs.map fun c => normSq (p - c)).zip rs).countP (fun d => decide (d.1 ≤ d.2)) ≤
      ((cs.map fun c => normSq (p - c)).zip rs).length := List.countP_le_length _
    _ ≤ (cs.map fun c => normSq (p - c)).length := by
        rw [List.length_zip]; exact Nat.min_le_left _ _
    _ = cs.length := List.length_map _ _

/-- Claim C10: every entry of the grid returned by `get_voxels` for an
`A`-atom input (`A ≥ 1`) is a count in `[0, 27×A]` — the value type is `ℕ`,
so entries are integers that are at least `0`, and this theorem bounds them
by the size `27×A` of the augmented atom set. -/
theorem C10_occupancy_bound (ks : List String) (cs : List Vec3) (rs : List ℚ)
    (V : Mat3) (N : ℕ) (xm ym zm : ℚ) (A i j k : ℕ) (g : VoxelGrid)
    (hc : cs.length = A) (hr : rs.length = A) (hA : 1 ≤ A)
    (hdet : det3 V ≠ 0) (hN : N ≠ 0)
    (hi : i < N) (hj : j < N) (hk : k < N)
    (hg : get_voxels (ks, cs, rs) V N xm ym zm = some g) :
    g.data k j i ≤ 27 * A := by
  have hzip : (cs.zip rs).length = A := by
    rw [List.length_zip, hc, hr, Nat.min_self]
  have hlen : (repeat_once (ks, cs, rs) V).1.length = 27 * A := by
    rw [(repeat_once_length (ks, cs, rs) V).1]
    show 27 * (cs.zip rs).length = 27 * A
    rw [hzip]
  have hne : (repeat_once (ks, cs, rs) V).1 ≠ [] := by
    apply List.ne_nil_of_length_pos
    rw [hlen]
    omega
  rw [(get_voxels_data (ks, cs, rs) V N xm ym zm i j k g hdet hN hne hi hj hk hg).2]
  calc lookup_voxel _ (repeat_once (ks, cs, rs) V).1 _ ≤
      (repeat_once (ks, cs, rs) V).1.length := lookup_voxel_le _ _ _
    _ = 27 * A := hlen

/-- Witness for C10 at the end-to-end scenario input (`A = 1`). -/
theorem C10_witness :
    atomO.2.1.length = 1 ∧ atomO.2.2.length = 1 ∧ (1 : ℕ) ≤ 1 ∧
    det3 identM ≠ 0 ∧ (1 : ℕ) ≠ 0 ∧ (0 : ℕ) < 1 ∧
    get_voxels atomO identM 1 1 1 1 = some exampleGrid ∧
    exampleGrid.data 0 0 0 ≤ 27 * 1 :=
  ⟨by decide, by decide, by decide, by with_unfolding_all decide, by decide,
    by decide, by with_unfolding_all rfl,
    C10_occupancy_bound atomO.1 atomO.2.1 atomO.2.2 identM 1 1 1 1 1 0 0 0
      exampleGrid (by decide) (by decide) (by decide)
      (by with_unfolding_all decide) (by decide) (by decide) (by decide) (by decide)
      (by with_unfolding_all rfl)⟩

/-- Claim C2 (evaluation at the failing input): calling `get_voxels` with an
empty atom list does not return an all-zero grid — the Python code raises.
`repeat_once` on zero atoms returns `np.array([])`, of shape `(0,)`, and the
first loop iteration's `M_cell - centers` inside `lookup_voxel` fails to
broadcast `(3,)` against `(0,)`, raising `ValueError`; the embedded
`get_voxels` accordingly returns `none` (no grid of any shape). -/
theorem C2_empty_atoms_raises : get_voxels emptyAtoms identM 1 1 1 1 = none := by
  with_unfolding_all rfl

/-- Counterexample to claim C3 as stated: with one atom, the identity
lattice, `resolution = 1` and `x_max = -1 ≤ 0`, `get_voxels` raises no
`InvalidSamplingSpec` — it returns a grid. -/
theorem C3_counterexample : (get_voxels atomO identM 1 (-1) 1 1).isSome = true := by
  with_unfolding_all rfl

/-- Amended claim C3: `get_voxels` performs no input validation at all.  A
non-positive bound is accepted and a grid is produced normally (first
conjunct), and `resolution = 0` fails only with a `ZeroDivisionError` when
the half-bin offset `x_max / (2*resolution)` is computed on line 53 — after
the `np.zeros` grid allocation on line 42, and not as an
`InvalidSamplingSpec` (second conjunct; `none` is the embedded error
outcome). -/
theorem C3_no_validation :
    (get_voxels atomO identM 1 (-1) 1 1).isSome = true ∧
    get_voxels atomO identM 0 1 1 1 = none :=
  ⟨by with_unfolding_all rfl, by with_unfolding_all rfl⟩

/-- Claim C5: the end-to-end scenario — identity lattice, one atom of radius
1.52 at `(0.5, 0.5, 0.5)`, `resolution = 1`, unit bounds — produces a 1×1×1
grid whose single value is 19: the number of triples `(k1,k2,k3)` in
`{-1,0,1}³` with `k1²+k2²+k3² ≤ 1.52²` (third conjunct computes that count
over the 27 periodic images), not 1. -/
theorem C5_end_to_end_19 :
    ((get_voxels atomO identM 1 1 1 1).map fun g => g.res) = some 1 ∧
    ((get_voxels atomO identM 1 1 1 1).map fun g => g.data 0 0 0) = some 19 ∧
    (repTriples.countP fun t =>
      decide (t.1 ^ 2 + t.2.1 ^ 2 + t.2.2 ^ 2 ≤ (1.52 : ℚ) ^ 2)) = 19 :=
  ⟨by with_unfolding_all rfl, by with_unfolding_all rfl, by with_unfolding_all rfl⟩

theorem processLines_append (l1 l2 : List String) (st : XYZState) :
    processLines st (l1 ++ l2) =
      match processLines st l1 with
      | Except.ok st2 => processLines st2 l2
      | Except.error e => Except.error e := by
  induction l1 generalizing st with
  | nil => rfl
  | cons l ls ih =>
    simp only [List.cons_append, processLines]
    cases processLine st l with
    | ok st2 => exact ih st2
    | error e => rfl

/-- Claim C9: an input whose lines parse up to some state and then contain a
well-formed `atom` line with an element symbol that is not a key of the
radius table makes `read_xyz` fail with the unknown-element error (modelling
Python's `KeyError` on `VDW_RADII[kind]`, the spec's `UnknownElement`) at
parse time: whatever follows the bad line is never read, and no structure —
partial or otherwise — is returned. -/
theorem C9_unknown_element (pre post : List String) (st : XYZState)
    (hpre : processLines initXYZ pre = Except.ok st)
    (line w xc yc zc kind : String)
    (hsplit : pySplit (pyStrip line) = [w, xc, yc, zc, kind])
    (hlat : pyStartswith (pyStrip line) "lattice_vector" = false)
    (hatom : pyStartswith (pyStrip line) "atom" = true)
    (hx : (pyFloat xc).isSome = true) (hy : (pyFloat yc).isSome = true)
    (hz : (pyFloat zc).isSome = true)
    (hk : vdwLookup kind = none) :
    read_xyz (pre ++ line :: post) = Except.error (XYZErr.unknownElement kind) := by
  have hline : processLine st line = Except.error (XYZErr.unknownElement kind) := by
    obtain ⟨qx, hqx⟩ := Option.isSome_iff_exists.mp hx
    obtain ⟨qy, hqy⟩ := Option.isSome_iff_exists.mp hy
    obtain ⟨qz, hqz⟩ := Option.isSome_iff_exists.mp hz
    simp only [processLine, hlat, hatom, hsplit, hqx, hqy, hqz, hk]
    rfl
  unfold read_xyz
  rw [processLines_append, hpre]
  simp only [processLines, hline]
  rfl

/-- Witness for C9: one good `lattice_vector` line, then
`atom 1 2 3 Zz` with the unknown kind `Zz` from the spec's scenario. -/
theorem C9_witness :
    processLines initXYZ ["lattice_vector 1 0 0"] =
      Except.ok (⟨[], [], [], [⟨1, 0, 0⟩]⟩ : XYZState) ∧
    pySplit (pyStrip "atom 1 2 3 Zz") = ["atom", "1", "2", "3", "Zz"] ∧
    pyStartswith (pyStrip "atom 1 2 3 Zz") "lattice_vector" = false ∧
    pyStartswith (pyStrip "atom 1 2 3 Zz") "atom" = true ∧
    (pyFloat "1").isSome = true ∧ (pyFloat "2").isSome = true ∧
    (pyFloat "3").isSome = true ∧ vdwLookup "Zz" = none ∧
    read_xyz (["lattice_vector 1 0 0"] ++ "atom 1 2 3 Zz" :: [""]) =
      Except.error (XYZErr.unknownElement "Zz") :=
  ⟨by with_unfolding_all rfl, by with_unfolding_all decide,
    by with_unfolding_all decide, by with_unfolding_all decide,
    by with_unfolding_all decide, by with_unfolding_all decide,
    by with_unfolding_all decide, by with_unfolding_all decide,
    C9_unknown_element ["lattice_vector 1 0 0"] [""] ⟨[], [], [], [⟨1, 0, 0⟩]⟩
      (by with_unfolding_all rfl) "atom 1 2 3 Zz" "atom" "1" "2" "3" "Zz"
      (by with_unfolding_all decide) (by with_unfolding_all decide)
      (by with_unfolding_all decide) (by with_unfolding_all decide)
      (by with_unfolding_all decide) (by with_unfolding_all decide)
      (by with_unfolding_all decide)⟩

end Crystalz
